import Mathlib

/-!
ServiceRegistry (src/index.js) — shallow embedding

The registry keeps its entries in a plain JavaScript object created by the
constructor (`this._services = {}`, line 10).  Property reads on such an object
(`this._services[name]`, lines 46, 51, 56, 74, 80) consult the object's own
properties first and then its prototype, `Object.prototype`.  The embedding keeps
both parts: the own properties are an insertion-ordered association list and the
inherited members are listed in `objectPrototypeKeys`.

`EventEmitter.emit` is modelled by the list of notifications a call emits, in
order.  The promise returned by `addService` / `removeService` is modelled by the
value it resolves with: both bodies run synchronously to completion.
-/

namespace ServiceRegistry

/-! ## Data model -/

/-- The object literal `{ hosts, endpoints }` built on line 47.  Neither field is
validated by the source, so both are kept generic. -/
structure Service (H E : Type) where
  hosts : H
  endpoints : E
  deriving DecidableEq, Repr

/-- The shape `endpointExists`, `endpointProtected` and `endpointInternal` read from
`service.endpoints`: three iterable sequences (`public`, `protected`, `internal`). -/
structure EndpointSet (Ep : Type) where
  publicEps : List Ep
  protectedEps : List Ep
  internalEps : List Ep
  deriving DecidableEq, Repr

/-- JavaScript values that flow through the registry: `undefined`, a string (the
`name` argument handed to `emit`), a service object stored in the directory, or
the member of `Object.prototype` found under a given key. -/
inductive Value (H E : Type) where
  | undefined
  | str (s : String)
  | obj (s : Service H E)
  | inherited (key : String)
  deriving DecidableEq, Repr

/-- The own properties of `this._services`, oldest first. -/
abbrev Directory (H E : Type) := List (String × Service H E)

/-- One call of `this.emit(event, ...args)`. -/
structure Emitted (H E : Type) where
  event : String
  args : List (Value H E)
  deriving DecidableEq, Repr

/-- What a mutating call leaves behind: the directory, the notifications emitted
during the call, and the value the returned promise resolves with. -/
structure Outcome (H E : Type) where
  services : Directory H E
  emitted : List (Emitted H E)
  result : Value H E
  deriving DecidableEq, Repr

/-! ## JavaScript object semantics used by the source -/

/-- The string-keyed members of `Object.prototype`, which every object created by
`{}` inherits.  Each of them is a function, except `__proto__`, whose getter
yields `Object.prototype` itself; all are truthy. -/
def objectPrototypeKeys : List String :=
  ["constructor", "__defineGetter__", "__defineSetter__", "hasOwnProperty",
   "__lookupGetter__", "__lookupSetter__", "isPrototypeOf", "propertyIsEnumerable",
   "toString", "valueOf", "__proto__", "toLocaleString"]

/-- Own-property lookup. -/
def getOwn {H E : Type} : Directory H E → String → Option (Service H E)
  | [], _ => none
  | (k, v) :: rest, name => if k = name then some v else getOwn rest name

/-- The read `this._services[name]`: own property first, then the prototype. -/
def getProp {H E : Type} (d : Directory H E) (name : String) : Value H E :=
  match getOwn d name with
  | some s => Value.obj s
  | none => if name ∈ objectPrototypeKeys then Value.inherited name else Value.undefined

/-- The assignment `this._services[name] = v` for a key other than `__proto__`: an
existing own property keeps its place, a new one goes last.  (`addService` only
assigns when the read of `name` is falsy, which excludes every key of
`objectPrototypeKeys`, `__proto__` included.) -/
def setProp {H E : Type} : Directory H E → String → Service H E → Directory H E
  | [], name, v => [(name, v)]
  | (k, w) :: rest, name, v =>
      if k = name then (k, v) :: rest else (k, w) :: setProp rest name v

/-- The statement `delete this._services[name]`: removes the own property if there is
one; inherited members are untouched. -/
def deleteProp {H E : Type} : Directory H E → String → Directory H E
  | [], _ => []
  | (k, w) :: rest, name =>
      if k = name then deleteProp rest name else (k, w) :: deleteProp rest name

/-- JavaScript truthiness, as tested by `!this._services[name]`. -/
def truthy {H E : Type} : Value H E → Bool
  | Value.undefined => false
  | Value.str s => s != ""
  | Value.obj _ => true
  | Value.inherited _ => true

/-! ## The directory operations -/

/-- The state the constructor installs (line 10). -/
def empty {H E : Type} : Directory H E := []

/-- Lines 44–53. -/
def addService {H E : Type} (d : Directory H E) (name : String) (hosts : H)
    (endpoints : E) : Outcome H E :=
  if !truthy (getProp d name) then
    let d1 := setProp d name { hosts := hosts, endpoints := endpoints }
    { services := d1
      emitted := [{ event := "service-connected", args := [Value.str name] }]
      result := getProp d1 name }
  else
    { services := d, emitted := [], result := getProp d name }

/-- Lines 55–57. -/
def service {H E : Type} (d : Directory H E) (name : String) : Value H E :=
  getProp d name

/-- Lines 73–82. -/
def removeService {H E : Type} (d : Directory H E) (name : String) : Outcome H E :=
  if !truthy (getProp d name) then
    { services := d, emitted := [], result := Value.undefined }
  else
    let d1 := deleteProp d name
    { services := d1
      emitted := [{ event := "service-disconnected", args := [Value.str name] }]
      result := getProp d1 name }

/-- A name is registered when the directory holds an entry for it. -/
def registered {H E : Type} (d : Directory H E) (name : String) : Prop :=
  (getOwn d name).isSome = true

instance {H E : Type} (d : Directory H E) (name : String) : Decidable (registered d name) :=
  inferInstanceAs (Decidable ((getOwn d name).isSome = true))

/-- The directory states the registry can be in: the constructor's empty object,
changed only by `addService` and `removeService`. -/
inductive Reachable {H E : Type} : Directory H E → Prop
  | init : Reachable empty
  | add {d : Directory H E} (name : String) (hosts : H) (endpoints : E) :
      Reachable d → Reachable (addService d name hosts endpoints).services
  | remove {d : Directory H E} (name : String) :
      Reachable d → Reachable (removeService d name).services

/-! ## Endpoint classification -/

/-- The loop `for (let x of xs) { if (x.contains(endpoint)) return true; }`: `true`
when the loop returned early, `false` when it ran off the end. -/
def scanContains {Ep R : Type} (contains : Ep → R → Bool) : List Ep → R → Bool
  | [], _ => false
  | ep :: rest, r => if contains ep r then true else scanContains contains rest r

/-- Lines 20–28. -/
def endpointExists {H Ep R : Type} (contains : Ep → R → Bool)
    (svc : Service H (EndpointSet Ep)) (endpoint : R) : Bool :=
  if scanContains contains svc.endpoints.publicEps endpoint then true
  else if scanContains contains svc.endpoints.protectedEps endpoint then true
  else false

/-- Lines 30–35. -/
def endpointProtected {H Ep R : Type} (contains : Ep → R → Bool)
    (svc : Service H (EndpointSet Ep)) (endpoint : R) : Bool :=
  if scanContains contains svc.endpoints.protectedEps endpoint then true else false

/-- Lines 37–42. -/
def endpointInternal {H Ep R : Type} (contains : Ep → R → Bool)
    (svc : Service H (EndpointSet Ep)) (endpoint : R) : Bool :=
  if scanContains contains svc.endpoints.internalEps endpoint then true else false


/-- Modelled from the spec: the source has no endpoint class; the spec (4.1) names
prefix match as one admissible containment rule.  An endpoint is its pattern
string and contains every route that starts with the pattern. -/
def prefixMatch (pattern route : String) : Bool :=
  pattern.toList.isPrefixOf route.toList

/-- Modelled from the spec: the exact-match containment rule of 4.1; an endpoint
contains the one route equal to its pattern. -/
def exactMatch (pattern route : String) : Bool :=
  decide (pattern = route)

/-- The entry registered by the spec's `orders` scenario. -/
def ordersService : Service (List String) (EndpointSet String) :=
  { hosts := ["10.0.0.1:80"]
    endpoints := { publicEps := ["/orders"], protectedEps := [], internalEps := ["/orders/admin"] } }

/-- The directory after `addService("orders", ...)` on a fresh registry. -/
def ordersDirectory : Directory (List String) (EndpointSet String) :=
  (addService empty "orders" ordersService.hosts ordersService.endpoints).services

/-! ## Reverse lookup -/

/-- The exceptions the modelled code can raise. -/
inductive JsError where
  | typeError
  | referenceError
  | syntaxError
  deriving DecidableEq, Repr

/-- How a call ends: it returns a value or it throws. -/
inductive Completion (α : Type) where
  | returned (value : α)
  | threw (error : JsError)
  deriving DecidableEq, Repr

/-- The number a property key denotes when it is an array index: the canonical decimal
spelling (no sign, no leading zero) of an integer below `2^32 - 1`. -/
def arrayIndex? (key : String) : Option Nat :=
  match key.toList with
  | [] => none
  | c :: cs =>
    if (c :: cs).all Char.isDigit && (c != '0' || cs.isEmpty) then
      let n := (c :: cs).foldl (fun acc ch => 10 * acc + (ch.toNat - 48)) 0
      if n < 2 ^ 32 - 1 then some n else none
    else none

/-- The array `Object.keys(this._services)`: own keys that are array indices first, in
ascending numeric order, then every other key in the order of creation. -/
def objectKeys {H E : Type} (d : Directory H E) : List String :=
  ((d.filterMap fun kv => (arrayIndex? kv.1).map fun n => (n, kv.1)).insertionSort
      (fun a b => a.1 ≤ b.1)).map Prod.snd ++
    (d.filter fun kv => (arrayIndex? kv.1).isNone).map Prod.fst

/-- The iteration of `Array.prototype.reduce` from a given accumulator. -/
def reduceFrom {α β : Type} (callback : β → α → Completion β) : β → List α → Completion β
  | acc, [] => Completion.returned acc
  | acc, x :: xs =>
    match callback acc x with
    | Completion.returned next => reduceFrom callback next xs
    | Completion.threw err => Completion.threw err

/-- The call `array.reduce(callback)` with no initial value: a TypeError on the empty
array; otherwise the first element is the initial accumulator and the callback runs
on the elements after it (not at all on a one-element array). -/
def reduceNoSeed {α β : Type} (asValue : α → β) (callback : β → α → Completion β) :
    List α → Completion β
  | [] => Completion.threw JsError.typeError
  | x :: xs => reduceFrom callback (asValue x) xs

/-- The inner callback, lines 61–65: `serviceKey` when the host matches, otherwise
the function falls off its end and yields `undefined`; the accumulator is unused. -/
def hostsCallback {E : Type} (host serviceKey : String) (_acc : Value (List String) E)
    (serviceHost : String) : Completion (Value (List String) E) :=
  Completion.returned (if host = serviceHost then Value.str serviceKey else Value.undefined)

/-- The outer callback, lines 60–66: the seedless reduction over the hosts of
`this._services[serviceKey]`; the accumulator is unused. -/
def keysCallback {E : Type} (d : Directory (List String) E) (host : String)
    (_acc : Value (List String) E) (serviceKey : String) : Completion (Value (List String) E) :=
  match getProp d serviceKey with
  | Value.obj svc => reduceNoSeed Value.str (hostsCallback host serviceKey) svc.hosts
  | _ => Completion.threw JsError.typeError

/-- Lines 59–67. -/
def serviceName {E : Type} (d : Directory (List String) E) (host : String) :
    Completion (Value (List String) E) :=
  reduceNoSeed Value.str (keysCallback d host) (objectKeys d)

/-! ## Health probe -/

/-- What `heartbeat` leaves behind: the directory, the URLs it sent an HTTP GET to, and
the lines it logged. -/
structure HeartbeatOutcome (H E : Type) where
  services : Directory H E
  requests : List String
  logged : List String
  deriving DecidableEq

/-- The text `${hosts[0]}` for an array of strings: the first element, or `undefined`
when there is none. -/
def listIndex0 (hosts : List String) : Completion String :=
  match hosts with
  | [] => Completion.returned "undefined"
  | p :: _ => Completion.returned p

/-- Lines 84–93.  `index0` is the text of `${hosts[0]}`; `probeOk url` tells whether the
GET to `url` succeeds.  Reading `.hosts[0]` from anything but an entry throws a
TypeError.  The request is neither awaited nor returned: on success one line is
logged, on failure the error is rethrown inside the detached promise chain. -/
def heartbeat {H E : Type} (index0 : H → Completion String) (probeOk : String → Bool)
    (d : Directory H E) (serviceName : String) : Completion (HeartbeatOutcome H E) :=
  match service d serviceName with
  | Value.obj svc =>
    match index0 svc.hosts with
    | Completion.returned first =>
      let url := "http://" ++ first ++ "/hb"
      Completion.returned
        { services := d
          requests := [url]
          logged := if probeOk url then ["[service-manager] " ++ serviceName ++ " OK"] else [] }
    | Completion.threw err => Completion.threw err
  | _ => Completion.threw JsError.typeError

/-! ## Durable store and persistence -/

/-- The durable store: string keys to string values, absent keys to `none`.  Its
operations are taken to succeed. -/
abbrev Store := String → Option String

/-- A store with no record. -/
def emptyStore : Store := fun _ => none

/-- The call `redisClient.set(key, value)`. -/
def storeSet (st : Store) (key value : String) : Store :=
  fun k => if k = key then some value else st k

/-- The call `redisClient.del(key)`. -/
def storeDel (st : Store) (key : String) : Store :=
  fun k => if k = key then none else st k

/-- The template literal for the hosts record of a name (lines 105, 127, 135). -/
def hostsKey (name : String) : String := "registry_" ++ name ++ "_hosts"

/-- The template literal for the endpoints record of a name (lines 109, 123, 134). -/
def endpointsKey (name : String) : String := "registry_" ++ name ++ "_endpoints"

/-- The pieces between occurrences of `sep`; `cur` holds the current piece reversed. -/
def splitAux (sep : Char) : List Char → List Char → List (List Char)
  | [], cur => [cur.reverse]
  | c :: cs, cur =>
    if c = sep then cur.reverse :: splitAux sep cs [] else splitAux sep cs (c :: cur)

/-- The call `text.split("_")`. -/
def splitUnderscore (text : String) : List String :=
  (splitAux '_' text.toList []).map String.mk

/-- Line 102, `serviceKey.split("_")[1]`; `none` stands for `undefined`. -/
def extractServiceName (serviceKey : String) : Option String :=
  (splitUnderscore serviceKey)[1]?

/-- The `service-connected` handler, lines 121–131, run to completion: both records of
the named service are written, endpoints first.  `encodeHosts` and `encodeEndpoints`
stand for `JSON.stringify`.  When `this.service(name)` is not an entry nothing is
written. -/
def onServiceConnected {H E : Type} (encodeHosts : H → String) (encodeEndpoints : E → String)
    (d : Directory H E) (st : Store) (name : String) : Store :=
  match service d name with
  | Value.obj svc =>
    storeSet (storeSet st (endpointsKey name) (encodeEndpoints svc.endpoints))
      (hostsKey name) (encodeHosts svc.hosts)
  | _ => st

/-- The `service-disconnected` handler, lines 133–137, run to completion. -/
def onServiceDisconnected (st : Store) (name : String) : Store :=
  storeDel (storeDel st (endpointsKey name)) (hostsKey name)

/-- Delivery of one notification to the two handlers `initRedis` subscribes; the
handlers read the directory as it is when the notification fires. -/
def deliver {H E : Type} (encodeHosts : H → String) (encodeEndpoints : E → String)
    (d : Directory H E) (st : Store) (ev : Emitted H E) : Store :=
  match ev.args with
  | Value.str name :: _ =>
    if ev.event = "service-connected" then
      onServiceConnected encodeHosts encodeEndpoints d st name
    else if ev.event = "service-disconnected" then onServiceDisconnected st name
    else st
  | _ => st

/-- The call `addService` on a registry whose handlers are subscribed: the outcome of
the call and the store once the handlers have run. -/
def addServiceSynced {H E : Type} (encodeHosts : H → String) (encodeEndpoints : E → String)
    (d : Directory H E) (st : Store) (name : String) (hosts : H) (endpoints : E) :
    Outcome H E × Store :=
  let out := addService d name hosts endpoints
  (out, out.emitted.foldl (deliver encodeHosts encodeEndpoints out.services) st)

/-- The call `removeService` on a registry whose handlers are subscribed. -/
def removeServiceSynced {H E : Type} (encodeHosts : H → String) (encodeEndpoints : E → String)
    (d : Directory H E) (st : Store) (name : String) : Outcome H E × Store :=
  let out := removeService d name
  (out, out.emitted.foldl (deliver encodeHosts encodeEndpoints out.services) st)

/-- The parts of the JavaScript runtime that rehydration applies to decoded values of
type `V`: `JSON.parse` on a string, the test `typeof v === "string"` (yielding the
string), and the text of `${v[0]}`. -/
structure JsonRuntime (V : Type) where
  parse : String → Completion V
  asString : V → Option String
  index0 : V → Completion String

/-- The expression `JSON.parse(await redisClient.get(key))`: an absent record is
`null`, which `JSON.parse` reads as the text `null`. -/
def parseReply {V : Type} (rt : JsonRuntime V) (reply : Option String) : Completion V :=
  rt.parse (reply.getD "null")

/-- The expression `typeof v === "string" ? JSON.parse(v) : v` (lines 114, 115). -/
def decodeAgain {V : Type} (rt : JsonRuntime V) (v : V) : Completion V :=
  match rt.asString v with
  | some text => rt.parse text
  | none => Completion.returned v

/-- The progress of startup rehydration: the directory, the notifications emitted and
the heartbeat requests sent so far. -/
structure Rehydration (V : Type) where
  services : Directory V V
  emitted : List (Emitted V V)
  requests : List String
  deriving DecidableEq

/-- The loop body, lines 102–118, for one scanned key: the state it leaves and the
error it throws, if any.  (A scanned key matches `registry_*_hosts`, so its second
`_`-separated piece exists; a missing piece would be spelled `undefined`.) -/
def rehydrateEntry {V : Type} (rt : JsonRuntime V) (probeOk : String → Bool) (st : Store)
    (r : Rehydration V) (serviceKey : String) : Rehydration V × Option JsError :=
  let serviceName := (extractServiceName serviceKey).getD "undefined"
  match parseReply rt (st (hostsKey serviceName)) with
  | Completion.threw err => (r, some err)
  | Completion.returned hosts =>
    match parseReply rt (st (endpointsKey serviceName)) with
    | Completion.threw err => (r, some err)
    | Completion.returned endpoints =>
      match decodeAgain rt hosts with
      | Completion.threw err => (r, some err)
      | Completion.returned hosts2 =>
        match decodeAgain rt endpoints with
        | Completion.threw err => (r, some err)
        | Completion.returned endpoints2 =>
          let out := addService r.services serviceName hosts2 endpoints2
          let r1 : Rehydration V :=
            { services := out.services, emitted := r.emitted ++ out.emitted,
              requests := r.requests }
          match heartbeat rt.index0 probeOk out.services serviceName with
          | Completion.threw err => (r1, some err)
          | Completion.returned hb =>
            ({ r1 with requests := r1.requests ++ hb.requests }, none)

/-- The head of the loop on line 101, `for (serviceKey of allHosts.keys)`, binding one
key.  The identifier `serviceKey` is declared nowhere in the file (no `let`, `const`,
`var` or parameter), and the body of a `class` is strict-mode code, where assigning
to an undeclared identifier throws a ReferenceError instead of creating a global. -/
def bindServiceKey (_key : String) : Completion Unit :=
  Completion.threw JsError.referenceError

/-- The loop of lines 101–119 over the scanned keys. -/
def rehydrateLoop {V : Type} (rt : JsonRuntime V) (probeOk : String → Bool) (st : Store) :
    List String → Rehydration V → Rehydration V × Option JsError
  | [], r => (r, none)
  | key :: rest, r =>
    match bindServiceKey key with
    | Completion.threw err => (r, some err)
    | Completion.returned _ =>
      match rehydrateEntry rt probeOk st r key with
      | (r1, some err) => (r1, some err)
      | (r1, none) => rehydrateLoop rt probeOk st rest r1

/-- What `initRedis` leaves behind: the directory, the heartbeat requests sent, whether
the two handlers were subscribed, and the error the call rejects with, if any. -/
structure InitOutcome (V : Type) where
  services : Directory V V
  requests : List String
  subscribed : Bool
  error : Option JsError
  deriving DecidableEq

/-- Lines 95–141, with a store that connects and answers: `scanned` is the `keys` field
of the scan reply.  An error thrown in the loop leaves the `try` block before the
handlers are subscribed and is rethrown by the `catch`. -/
def initRedis {V : Type} (rt : JsonRuntime V) (probeOk : String → Bool) (st : Store)
    (scanned : List String) (d : Directory V V) : InitOutcome V :=
  match rehydrateLoop rt probeOk st scanned { services := d, emitted := [], requests := [] } with
  | (r, some err) =>
    { services := r.services, requests := r.requests, subscribed := false, error := some err }
  | (r, none) =>
    { services := r.services, requests := r.requests, subscribed := true, error := none }

/-! ## Concrete registries used as examples -/

/-- An endpoint set with no endpoint. -/
def noEndpoints : EndpointSet String :=
  { publicEps := [], protectedEps := [], internalEps := [] }

/-- Two services registered in turn, `alpha` then `beta`, each with the single host
`10.0.0.5:8080`. -/
def sharedHostDirectory : Directory (List String) (EndpointSet String) :=
  (addService (addService empty "alpha" ["10.0.0.5:8080"] noEndpoints).services
    "beta" ["10.0.0.5:8080"] noEndpoints).services

/-- Three services registered in turn: `alpha` with one host, `beta` with none, `gamma`
with one host. -/
def middleEmptyDirectory : Directory (List String) (EndpointSet String) :=
  (addService (addService (addService empty "alpha" ["10.0.0.1:80"] noEndpoints).services
    "beta" [] noEndpoints).services "gamma" ["10.0.0.3:80"] noEndpoints).services

/-- Three services registered in turn: `alpha` and `beta` with one host each, `gamma`
with two. -/
def threeServiceDirectory : Directory (List String) (EndpointSet String) :=
  (addService (addService (addService empty "alpha" ["10.0.0.1:80"] noEndpoints).services
    "beta" ["10.0.0.2:80"] noEndpoints).services
    "gamma" ["10.0.0.3:80", "10.0.0.4:80"] noEndpoints).services

/-! ## Sequences of calls -/

/-- One mutating call on the directory. -/
inductive Call (H E : Type) where
  | add (name : String) (hosts : H) (endpoints : E)
  | remove (name : String)

/-- The name a call is made with. -/
def callName {H E : Type} : Call H E → String
  | Call.add name _ _ => name
  | Call.remove name => name

/-- The outcome of one call. -/
def step {H E : Type} (d : Directory H E) : Call H E → Outcome H E
  | Call.add name hosts endpoints => addService d name hosts endpoints
  | Call.remove name => removeService d name

/-- The calls run one after the other: the final directory and every notification
emitted, in order. -/
def run {H E : Type} : Directory H E → List (Call H E) → Directory H E × List (Emitted H E)
  | d, [] => (d, [])
  | d, c :: cs =>
    ((run (step d c).services cs).1, (step d c).emitted ++ (run (step d c).services cs).2)

/-- The event names of the notifications whose argument is `name`, in order. -/
def eventsFor {H E : Type} (name : String) (trace : List (Emitted H E)) : List String :=
  trace.filterMap fun ev =>
    match ev.args with
    | [Value.str n] => if n = name then some ev.event else none
    | _ => none

/-- Whether a list of event names alternates between `service-connected` and
`service-disconnected`, starting with the first when `expectConnected` is true and
with the second otherwise. -/
def alternates : Bool → List String → Bool
  | _, [] => true
  | expectConnected, ev :: rest =>
    (ev == if expectConnected then "service-connected" else "service-disconnected") &&
      alternates (!expectConnected) rest

/-- Whether the last event name is `service-connected`; `start` when there is none. -/
def endsConnected : Bool → List String → Bool
  | start, [] => start
  | _, ev :: rest => endsConnected (ev == "service-connected") rest

/-- The number of calls of the sequence that change the directory they are run on. -/
def changingCalls {H E : Type} [DecidableEq H] [DecidableEq E] :
    Directory H E → List (Call H E) → Nat
  | _, [] => 0
  | d, c :: cs =>
    (if (step d c).services = d then 0 else 1) + changingCalls (step d c).services cs

/-! ## Properties of the object model -/

theorem getOwn_setProp {H E : Type} (d : Directory H E) (name n : String) (v : Service H E) :
    getOwn (setProp d name v) n = if n = name then some v else getOwn d n := by
  induction d with
  | nil =>
    by_cases h : n = name
    · simp [setProp, getOwn, h]
    · have h1 : ¬ name = n := fun e => h e.symm
      simp [setProp, getOwn, h, h1]
  | cons p rest ih =>
    obtain ⟨k, w⟩ := p
    by_cases hk : k = name
    · by_cases h : n = name
      · simp [setProp, getOwn, hk, h]
      · have h1 : ¬ name = n := fun e => h e.symm
        simp [setProp, getOwn, hk, h, h1]
    · by_cases h : n = name
      · subst h
        simp [setProp, getOwn, hk, ih]
      · by_cases hkn : k = n
        · simp [setProp, getOwn, hk, h, hkn]
        · simp [setProp, getOwn, hk, h, hkn, ih]

theorem getOwn_deleteProp {H E : Type} (d : Directory H E) (name n : String) :
    getOwn (deleteProp d name) n = if n = name then none else getOwn d n := by
  induction d with
  | nil => simp [deleteProp, getOwn]
  | cons p rest ih =>
    obtain ⟨k, w⟩ := p
    by_cases hk : k = name
    · by_cases h : n = name
      · subst h
        simp [deleteProp, getOwn, hk, ih]
      · have h1 : ¬ name = n := fun e => h e.symm
        simp [deleteProp, getOwn, hk, ih, h, h1]
    · by_cases h : n = name
      · subst h
        simp [deleteProp, getOwn, hk, ih]
      · by_cases hkn : k = n
        · simp [deleteProp, getOwn, hk, h, hkn]
        · simp [deleteProp, getOwn, hk, h, hkn, ih]

theorem truthy_getProp_eq_false {H E : Type} (d : Directory H E) (name : String) :
    truthy (getProp d name) = false ↔ getOwn d name = none ∧ name ∉ objectPrototypeKeys := by
  unfold getProp
  cases hown : getOwn d name with
  | some s => simp [truthy]
  | none =>
    by_cases hk : name ∈ objectPrototypeKeys
    · simp [hk, truthy]
    · simp [hk, truthy]

/-- No reachable directory has an own property that shadows a member of
`Object.prototype`: `addService` never assigns under such a key. -/
theorem reachable_getOwn_inherited {H E : Type} {d : Directory H E} (hd : Reachable d)
    (n : String) (hn : n ∈ objectPrototypeKeys) : getOwn d n = none := by
  induction hd with
  | init => rfl
  | @add d0 name hosts endpoints _ ih =>
    unfold addService
    by_cases ht : truthy (getProp d0 name) = false
    · have hne : n ≠ name := by
        rintro rfl
        exact ((truthy_getProp_eq_false _ _).1 ht).2 hn
      simp [ht, getOwn_setProp, hne, ih]
    · simp [ht, ih]
  | @remove d0 name _ ih =>
    unfold removeService
    by_cases ht : truthy (getProp d0 name) = false
    · simp [ht, ih]
    · simp [ht, getOwn_deleteProp, ih]

theorem scanContains_eq_true_iff {Ep R : Type} (contains : Ep → R → Bool) (eps : List Ep)
    (r : R) : scanContains contains eps r = true ↔ ∃ ep ∈ eps, contains ep r = true := by
  induction eps with
  | nil => simp [scanContains]
  | cons ep rest ih =>
    by_cases h : contains ep r = true
    · simp [scanContains, h]
    · simp [scanContains, h, ih]

/-! ## addService and removeService on names that collide with nothing inherited -/

theorem getProp_of_unregistered {H E : Type} (d : Directory H E) (name : String)
    (hreg : ¬ registered d name) (hk : name ∉ objectPrototypeKeys) :
    getProp d name = Value.undefined := by
  have hown : getOwn d name = none := by
    cases h : getOwn d name with
    | none => rfl
    | some s => exact absurd (by simp [registered, h]) hreg
  simp [getProp, hown, hk]

/-- For an unregistered name that is not a member of `Object.prototype`, `addService`
creates the entry, emits `service-connected(name)` once and resolves with the entry. -/
theorem addService_unregistered {H E : Type} (d : Directory H E) (name : String) (h : H) (e : E)
    (hreg : ¬ registered d name) (hk : name ∉ objectPrototypeKeys) :
    service (addService d name h e).services name = Value.obj { hosts := h, endpoints := e } ∧
    (addService d name h e).emitted =
      [{ event := "service-connected", args := [Value.str name] }] ∧
    (addService d name h e).result = Value.obj { hosts := h, endpoints := e } := by
  have hu := getProp_of_unregistered d name hreg hk
  have hset : getProp (setProp d name { hosts := h, endpoints := e }) name =
      Value.obj { hosts := h, endpoints := e } := by
    simp [getProp, getOwn_setProp]
  simp [addService, service, hu, truthy, hset]

/-- Once `service(name)` is an entry, `addService` changes nothing, emits nothing and
resolves with that entry. -/
theorem addService_registered {H E : Type} (d : Directory H E) (name : String) (h : H) (e : E)
    (s : Service H E) (hs : getOwn d name = some s) :
    addService d name h e = { services := d, emitted := [], result := Value.obj s } := by
  simp [addService, getProp, hs, truthy]

/-- For an unregistered name that is not a member of `Object.prototype`,
`removeService` returns early: nothing changes, nothing is emitted, the result is
`undefined`. -/
theorem removeService_unregistered {H E : Type} (d : Directory H E) (name : String)
    (hreg : ¬ registered d name) (hk : name ∉ objectPrototypeKeys) :
    removeService d name = { services := d, emitted := [], result := Value.undefined } := by
  have hu := getProp_of_unregistered d name hreg hk
  simp [removeService, hu, truthy]

/-! ## The claims -/

/-- C1 (fails on the code). On the fresh registry the name `"toString"` is not
registered, yet `addService("toString", h, e)` creates no entry and emits no
notification, and `service("toString")` afterwards is the function inherited from
`Object.prototype`, not `{hosts: h, endpoints: e}`. -/
theorem addService_inherited_name {H E : Type} (h : H) (e : E) :
    ¬ registered (empty : Directory H E) "toString" ∧
    (addService (empty : Directory H E) "toString" h e).services = empty ∧
    (addService (empty : Directory H E) "toString" h e).emitted = [] ∧
    service (addService (empty : Directory H E) "toString" h e).services "toString" =
      Value.inherited "toString" := by
  refine ⟨?_, ?_, ?_, ?_⟩ <;>
    simp [registered, empty, addService, service, getProp, getOwn, truthy, objectPrototypeKeys]

/-- C2 (fails on the code). On the fresh registry the name `"valueOf"` is not
registered, yet after `addService("valueOf", h1, e1)` and `addService("valueOf", h2, e2)`
no notification at all has been emitted and `service("valueOf")` is the inherited
function, not `{hosts: h1, endpoints: e1}`. -/
theorem addService_twice_inherited_name {H E : Type} (h1 h2 : H) (e1 e2 : E) :
    ¬ registered (empty : Directory H E) "valueOf" ∧
    (addService (empty : Directory H E) "valueOf" h1 e1).emitted ++
      (addService (addService (empty : Directory H E) "valueOf" h1 e1).services
        "valueOf" h2 e2).emitted = [] ∧
    service (addService (addService (empty : Directory H E) "valueOf" h1 e1).services
        "valueOf" h2 e2).services "valueOf" = Value.inherited "valueOf" := by
  refine ⟨?_, ?_, ?_⟩ <;>
    simp [registered, empty, addService, service, getProp, getOwn, truthy, objectPrototypeKeys]

/-- For a name that is not a member of `Object.prototype`, `addService` is idempotent:
the first call's values stay, the second call changes nothing and resolves with the
existing entry, and one `service-connected` is emitted over both calls. -/
theorem addService_twice_unregistered {H E : Type} (d : Directory H E) (name : String)
    (h1 h2 : H) (e1 e2 : E) (hreg : ¬ registered d name) (hk : name ∉ objectPrototypeKeys) :
    addService (addService d name h1 e1).services name h2 e2 =
      { services := (addService d name h1 e1).services, emitted := [],
        result := Value.obj { hosts := h1, endpoints := e1 } } ∧
    service (addService (addService d name h1 e1).services name h2 e2).services name =
      Value.obj { hosts := h1, endpoints := e1 } ∧
    (addService d name h1 e1).emitted ++
      (addService (addService d name h1 e1).services name h2 e2).emitted =
      [{ event := "service-connected", args := [Value.str name] }] := by
  have hu := getProp_of_unregistered d name hreg hk
  have hown : getOwn (addService d name h1 e1).services name =
      some { hosts := h1, endpoints := e1 } := by
    simp [addService, hu, truthy, getOwn_setProp]
  have h2nd := addService_registered (addService d name h1 e1).services name h2 e2 _ hown
  have h1st := (addService_unregistered d name h1 e1 hreg hk)
  refine ⟨h2nd, ?_, ?_⟩
  · rw [h2nd]; exact h1st.1
  · rw [h2nd, h1st.2.1]; rfl

/-- C3. In every directory state the registry can reach, for every registered name:
after `removeService(name)`, `service(name)` is `undefined`, and the call emitted
exactly one notification, `service-disconnected` with that name. -/
theorem removeService_registered {H E : Type} (d : Directory H E) (name : String)
    (hd : Reachable d) (hreg : registered d name) :
    service (removeService d name).services name = Value.undefined ∧
    (removeService d name).emitted =
      [{ event := "service-disconnected", args := [Value.str name] }] := by
  obtain ⟨s, hs⟩ := Option.isSome_iff_exists.1 hreg
  have hk : name ∉ objectPrototypeKeys := by
    intro hmem
    have := reachable_getOwn_inherited hd name hmem
    simp [hs] at this
  simp [removeService, service, getProp, hs, truthy, getOwn_deleteProp, hk]

theorem removeService_registered_witness :
    Reachable ordersDirectory ∧ registered ordersDirectory "orders" ∧
    service (removeService ordersDirectory "orders").services "orders" = Value.undefined ∧
    (removeService ordersDirectory "orders").emitted =
      [{ event := "service-disconnected", args := [Value.str "orders"] }] :=
  ⟨Reachable.add "orders" _ _ Reachable.init, by decide,
    removeService_registered ordersDirectory "orders"
      (Reachable.add "orders" _ _ Reachable.init) (by decide)⟩

/-- C4 (fails on the code). With `orders` registered, `service("orders")` is the entry,
but `removeService("orders")` resolves with `undefined`: line 80 reads
`this._services[name]` after line 76 deleted it. -/
theorem removeService_result_orders :
    service ordersDirectory "orders" = Value.obj ordersService ∧
    (removeService ordersDirectory "orders").result = Value.undefined := by
  decide

/-- In every reachable state, `removeService` of a registered name resolves with
`undefined`, never with the removed entry. -/
theorem removeService_result_undefined {H E : Type} (d : Directory H E) (name : String)
    (hd : Reachable d) (hreg : registered d name) :
    (removeService d name).result = Value.undefined := by
  obtain ⟨s, hs⟩ := Option.isSome_iff_exists.1 hreg
  have hk : name ∉ objectPrototypeKeys := by
    intro hmem
    have := reachable_getOwn_inherited hd name hmem
    simp [hs] at this
  simp [removeService, getProp, hs, truthy, getOwn_deleteProp, hk]

/-- C5 as stated is false: removing `orders` emits `service-disconnected` with the
name alone; the removed entry is not among the notification's arguments. -/
theorem removeService_payload_orders :
    getOwn ordersDirectory "orders" = some ordersService ∧
    (removeService ordersDirectory "orders").emitted ≠
      [{ event := "service-disconnected",
         args := [Value.str "orders", Value.obj ordersService] }] ∧
    ∀ ev ∈ (removeService ordersDirectory "orders").emitted,
      Value.obj ordersService ∉ ev.args := by
  decide

/-- C5 (amended). For every directory state and every name registered in it with
entry `s`, `removeService(name)` emits one notification, `service-disconnected`,
whose only argument is the name: no service value is part of the payload. -/
theorem removeService_emits_name_only {H E : Type} (d : Directory H E) (name : String)
    (s : Service H E) (hs : getOwn d name = some s) :
    (removeService d name).emitted =
      [{ event := "service-disconnected", args := [Value.str name] }] := by
  simp [removeService, getProp, hs, truthy]

theorem removeService_emits_name_only_witness :
    getOwn ordersDirectory "orders" = some ordersService ∧
    (removeService ordersDirectory "orders").emitted =
      [{ event := "service-disconnected", args := [Value.str "orders"] }] :=
  ⟨by decide, removeService_emits_name_only ordersDirectory "orders" ordersService (by decide)⟩

/-- C6 (fails on the code). On the fresh registry the name `"hasOwnProperty"` is not
registered, yet `removeService("hasOwnProperty")` emits `service-disconnected` and
resolves with the inherited function instead of `undefined`; the directory itself
stays unchanged. -/
theorem removeService_inherited_name {H E : Type} :
    ¬ registered (empty : Directory H E) "hasOwnProperty" ∧
    removeService (empty : Directory H E) "hasOwnProperty" =
      { services := empty
        emitted := [{ event := "service-disconnected", args := [Value.str "hasOwnProperty"] }]
        result := Value.inherited "hasOwnProperty" } := by
  refine ⟨?_, ?_⟩ <;>
    simp [registered, empty, removeService, getProp, getOwn, deleteProp, truthy,
      objectPrototypeKeys]

/-- C7. `endpointExists(service, r)` is true exactly when some endpoint of `public` or
of `protected` contains `r`; in particular it is false for a route that only an
`internal` endpoint contains. -/
theorem endpointExists_iff {H Ep R : Type} (contains : Ep → R → Bool)
    (svc : Service H (EndpointSet Ep)) (r : R) :
    (endpointExists contains svc r = true ↔
      (∃ ep ∈ svc.endpoints.publicEps, contains ep r = true) ∨
      (∃ ep ∈ svc.endpoints.protectedEps, contains ep r = true)) ∧
    ((∃ ep ∈ svc.endpoints.internalEps, contains ep r = true) →
      (∀ ep ∈ svc.endpoints.publicEps, contains ep r = false) →
      (∀ ep ∈ svc.endpoints.protectedEps, contains ep r = false) →
      endpointExists contains svc r = false) := by
  have hiff : endpointExists contains svc r = true ↔
      (∃ ep ∈ svc.endpoints.publicEps, contains ep r = true) ∨
      (∃ ep ∈ svc.endpoints.protectedEps, contains ep r = true) := by
    unfold endpointExists
    rw [← scanContains_eq_true_iff, ← scanContains_eq_true_iff]
    cases scanContains contains svc.endpoints.publicEps r <;>
      cases scanContains contains svc.endpoints.protectedEps r <;> simp
  refine ⟨hiff, ?_⟩
  intro _ hpub hprot
  cases hex : endpointExists contains svc r with
  | false => rfl
  | true =>
    rcases hiff.1 hex with ⟨ep, hmem, hc⟩ | ⟨ep, hmem, hc⟩
    · rw [hpub ep hmem] at hc
      exact absurd hc (by decide)
    · rw [hprot ep hmem] at hc
      exact absurd hc (by decide)

theorem endpointExists_iff_witness :
    (∃ ep ∈ ordersService.endpoints.internalEps, exactMatch ep "/orders/admin" = true) ∧
    (∀ ep ∈ ordersService.endpoints.publicEps, exactMatch ep "/orders/admin" = false) ∧
    (∀ ep ∈ ordersService.endpoints.protectedEps, exactMatch ep "/orders/admin" = false) ∧
    endpointExists exactMatch ordersService "/orders/admin" = false :=
  ⟨by decide, by decide, by decide,
    (endpointExists_iff exactMatch ordersService "/orders/admin").2
      (by decide) (by decide) (by decide)⟩

/-- C8. `endpointProtected(service, r)` is true exactly when some endpoint of
`protected` contains `r`; with an empty `protected` sequence it is false. -/
theorem endpointProtected_iff {H Ep R : Type} (contains : Ep → R → Bool)
    (svc : Service H (EndpointSet Ep)) (r : R) :
    (endpointProtected contains svc r = true ↔
      ∃ ep ∈ svc.endpoints.protectedEps, contains ep r = true) ∧
    (endpointProtected contains svc r = false ↔
      ∀ ep ∈ svc.endpoints.protectedEps, contains ep r = false) ∧
    endpointProtected contains
      { svc with endpoints := { svc.endpoints with protectedEps := [] } } r = false := by
  have hiff : endpointProtected contains svc r = true ↔
      ∃ ep ∈ svc.endpoints.protectedEps, contains ep r = true := by
    unfold endpointProtected
    rw [← scanContains_eq_true_iff]
    cases scanContains contains svc.endpoints.protectedEps r <;> simp
  refine ⟨hiff, ?_, ?_⟩
  · rw [← Bool.not_eq_true, hiff]
    simp
  · simp [endpointProtected, scanContains]

/-- C9. `endpointInternal(service, r)` is true exactly when some endpoint of `internal`
contains `r`, and the result is the same whatever the `public` and `protected`
sequences are. -/
theorem endpointInternal_iff {H Ep R : Type} (contains : Ep → R → Bool)
    (svc : Service H (EndpointSet Ep)) (r : R) :
    (endpointInternal contains svc r = true ↔
      ∃ ep ∈ svc.endpoints.internalEps, contains ep r = true) ∧
    ∀ pub prot : List Ep,
      endpointInternal contains
        { svc with endpoints := { svc.endpoints with publicEps := pub, protectedEps := prot } } r =
      endpointInternal contains svc r := by
  refine ⟨?_, ?_⟩
  · unfold endpointInternal
    rw [← scanContains_eq_true_iff]
    cases scanContains contains svc.endpoints.internalEps r <;> simp
  · intro pub prot
    rfl

theorem prefixMatch_self (p : String) : prefixMatch p p = true := by
  simp [prefixMatch]

/-- C10 as stated is false: prefix match is a rule in which `ep(p)` contains `p`, and
under it the public endpoint `/orders` contains `/orders/admin`, so after the
scenario's `addService` call `endpointExists(service("orders"), "/orders/admin")` is
true. -/
theorem prefixMatch_orders_endpointExists :
    (∀ p : String, prefixMatch p p = true) ∧
    service ordersDirectory "orders" = Value.obj ordersService ∧
    endpointExists prefixMatch ordersService "/orders/admin" = true :=
  ⟨prefixMatch_self, by decide, by decide⟩

/-- C10 (amended). For every containment rule under which `ep("/orders/admin")`
contains `/orders/admin` and `ep("/orders")` does not, the scenario holds: after
`addService("orders", ...)` on the fresh registry, `service("orders")` is the entry,
`endpointProtected(.., "/orders")` is false, `endpointInternal(.., "/orders/admin")` is
true and `endpointExists(.., "/orders/admin")` is false. -/
theorem orders_scenario (contains : String → String → Bool)
    (hself : contains "/orders/admin" "/orders/admin" = true)
    (hsep : contains "/orders" "/orders/admin" = false) :
    service (addService (empty : Directory (List String) (EndpointSet String)) "orders"
      ["10.0.0.1:80"]
      { publicEps := ["/orders"], protectedEps := [], internalEps := ["/orders/admin"] }).services
      "orders" = Value.obj ordersService ∧
    endpointProtected contains ordersService "/orders" = false ∧
    endpointInternal contains ordersService "/orders/admin" = true ∧
    endpointExists contains ordersService "/orders/admin" = false := by
  refine ⟨by decide, ?_, ?_, ?_⟩
  · simp [endpointProtected, ordersService, scanContains]
  · simp [endpointInternal, ordersService, scanContains, hself]
  · simp [endpointExists, ordersService, scanContains, hsep]

theorem orders_scenario_witness :
    exactMatch "/orders/admin" "/orders/admin" = true ∧
    exactMatch "/orders" "/orders/admin" = false ∧
    endpointProtected exactMatch ordersService "/orders" = false ∧
    endpointInternal exactMatch ordersService "/orders/admin" = true ∧
    endpointExists exactMatch ordersService "/orders/admin" = false :=
  ⟨by decide, by decide, (orders_scenario exactMatch (by decide) (by decide)).2⟩

/-! ## serviceName -/

theorem getOwn_isSome_of_mem {H E : Type} (d : Directory H E) (k : String)
    (h : ∃ kv ∈ d, kv.1 = k) : ∃ s, getOwn d k = some s := by
  induction d with
  | nil => simp at h
  | cons p rest ih =>
    obtain ⟨j, w⟩ := p
    by_cases hj : j = k
    · exact ⟨w, by simp [getOwn, hj]⟩
    · obtain ⟨kv, hmem, hkv⟩ := h
      rcases List.mem_cons.1 hmem with heq | hrest
      · subst heq
        exact absurd hkv hj
      · obtain ⟨s, hs⟩ := ih ⟨kv, hrest, hkv⟩
        exact ⟨s, by simp [getOwn, hj, hs]⟩

/-- Every key listed by `Object.keys` is an own property. -/
theorem getOwn_of_mem_objectKeys {H E : Type} (d : Directory H E) (k : String)
    (hk : k ∈ objectKeys d) : ∃ s, getOwn d k = some s := by
  apply getOwn_isSome_of_mem
  unfold objectKeys at hk
  rcases List.mem_append.1 hk with h1 | h2
  · obtain ⟨⟨n, j⟩, hmem, hj⟩ := List.mem_map.1 h1
    have hmem2 := (List.perm_insertionSort _ _).mem_iff.1 hmem
    obtain ⟨kv, hkv, hsome⟩ := List.mem_filterMap.1 hmem2
    cases hidx : arrayIndex? kv.1 with
    | none => simp [hidx] at hsome
    | some m =>
      simp [hidx] at hsome
      refine ⟨kv, hkv, ?_⟩
      simp only at hj
      rw [← hj, ← hsome.2]
  · obtain ⟨kv, hmem, hj⟩ := List.mem_map.1 h2
    exact ⟨kv, (List.mem_filter.1 hmem).1, hj⟩

theorem reduceFrom_append_last {α β : Type} (callback : β → α → Completion β)
    (f : α → Completion β) (hcb : ∀ acc x, callback acc x = f x) (xs : List α) (y : α)
    (acc : β) (hok : ∀ x ∈ xs, ∃ v, f x = Completion.returned v) :
    reduceFrom callback acc (xs ++ [y]) = f y := by
  induction xs generalizing acc with
  | nil =>
    simp only [List.nil_append, reduceFrom, hcb]
    cases f y <;> rfl
  | cons x rest ih =>
    obtain ⟨v, hv⟩ := hok x (List.mem_cons_self x rest)
    simp only [List.cons_append, reduceFrom, hcb, hv]
    exact ih v (fun z hz => hok z (List.mem_cons_of_mem x hz))

theorem reduceFrom_threw {α β : Type} (callback : β → α → Completion β)
    (f : α → Completion β) (hcb : ∀ acc x, callback acc x = f x) (xs : List α) (acc : β)
    (err : JsError) (hall : ∀ x e, f x = Completion.threw e → e = err)
    (hex : ∃ x ∈ xs, ∃ e, f x = Completion.threw e) :
    reduceFrom callback acc xs = Completion.threw err := by
  induction xs generalizing acc with
  | nil => simp at hex
  | cons x rest ih =>
    simp only [reduceFrom, hcb]
    cases hx : f x with
    | threw e => simp [hall x e hx]
    | returned v =>
      simp only
      apply ih
      obtain ⟨z, hz, e, he⟩ := hex
      rcases List.mem_cons.1 hz with heq | hrest
      · subst heq
        rw [hx] at he
        cases he
      · exact ⟨z, hrest, e, he⟩

/-- The inner reduction over a list of at least two hosts looks at the last host only. -/
theorem hosts_reduce_last {E : Type} (host key p q : String) (rest : List String) :
    reduceNoSeed Value.str (hostsCallback host key) (p :: (rest ++ [q])) =
      Completion.returned
        (if host = q then Value.str key else (Value.undefined : Value (List String) E)) := by
  unfold reduceNoSeed
  exact reduceFrom_append_last (hostsCallback host key)
    (fun x => Completion.returned (if host = x then Value.str key else Value.undefined))
    (fun _ _ => rfl) rest q (Value.str p) (fun x _ => ⟨_, rfl⟩)

theorem reduceFrom_hostsCallback_returned {E : Type} (host key : String)
    (hosts : List String) (acc : Value (List String) E) :
    ∃ v : Value (List String) E,
      reduceFrom (hostsCallback host key) acc hosts = Completion.returned v := by
  induction hosts generalizing acc with
  | nil => exact ⟨acc, rfl⟩
  | cons x xs ih =>
    simp only [reduceFrom, hostsCallback]
    exact ih _

theorem hosts_reduce_returned {E : Type} (host key : String) (hosts : List String)
    (hne : hosts ≠ []) :
    ∃ v : Value (List String) E,
      reduceNoSeed Value.str (hostsCallback host key) hosts = Completion.returned v := by
  cases hosts with
  | nil => exact absurd rfl hne
  | cons p rest => exact reduceFrom_hostsCallback_returned host key rest (Value.str p)

theorem keysCallback_threw {E : Type} (d : Directory (List String) E) (host k : String)
    (e : JsError) (h : keysCallback d host Value.undefined k = Completion.threw e) :
    e = JsError.typeError := by
  unfold keysCallback at h
  cases hg : getProp d k with
  | undefined => rw [hg] at h; cases h; rfl
  | str t => rw [hg] at h; cases h; rfl
  | inherited t => rw [hg] at h; cases h; rfl
  | obj svc =>
    rw [hg] at h
    simp only at h
    by_cases hne : svc.hosts = []
    · rw [hne] at h
      cases h
      rfl
    · obtain ⟨v, hv⟩ := hosts_reduce_returned (E := E) host k svc.hosts hne
      rw [hv] at h
      cases h

theorem keysCallback_of_getOwn {E : Type} (d : Directory (List String) E) (host k : String)
    (svc : Service (List String) E) (h : getOwn d k = some svc) :
    keysCallback d host Value.undefined k =
      reduceNoSeed Value.str (hostsCallback host k) svc.hosts := by
  simp [keysCallback, getProp, h]

/-- C11 (fails on the code). With `alpha` and `beta` registered in turn, each with the
single host `10.0.0.5:8080`, `serviceName("10.0.0.5:8080")` returns the host string
itself, not the name `alpha`; and for a host that no service lists it returns that
same string instead of `undefined`. -/
theorem serviceName_sharedHost :
    objectKeys sharedHostDirectory = ["alpha", "beta"] ∧
    serviceName sharedHostDirectory "10.0.0.5:8080" =
      Completion.returned (Value.str "10.0.0.5:8080") ∧
    serviceName sharedHostDirectory "10.0.0.5:8080" ≠ Completion.returned (Value.str "alpha") ∧
    serviceName sharedHostDirectory "192.168.7.7:80" =
      Completion.returned (Value.str "10.0.0.5:8080") := by
  decide

/-- C12 (fails on the code). On the fresh registry, which is a reachable state,
`serviceName(host)` throws a TypeError for every host: `Object.keys` is empty and the
reduction has no initial value. -/
theorem serviceName_empty_throws {E : Type} (host : String) :
    Reachable (empty : Directory (List String) E) ∧
    serviceName (empty : Directory (List String) E) host =
      Completion.threw JsError.typeError :=
  ⟨Reachable.init, rfl⟩

/-- C20 as stated is false: with `alpha`, `beta`, `gamma` registered in turn, `beta` having
no host and `gamma` the single host `10.0.0.3:80`, the call throws; the last service
alone would give the string `10.0.0.3:80`. -/
theorem serviceName_middleEmpty :
    objectKeys middleEmptyDirectory = ["alpha", "beta", "gamma"] ∧
    getOwn middleEmptyDirectory "gamma" =
      some { hosts := ["10.0.0.3:80"], endpoints := noEndpoints } ∧
    serviceName middleEmptyDirectory "10.0.0.3:80" = Completion.threw JsError.typeError ∧
    serviceName middleEmptyDirectory "10.0.0.3:80" ≠
      Completion.returned (Value.str "10.0.0.3:80") := by
  decide

/-- C20 (amended). For every directory and host: with no service the call throws; with
exactly one service the result is its name; with two or more, the call throws when
a service between the first and the last has no host, and otherwise the last service
in `Object.keys` order decides: no host, the call throws; one host, the result is
that host string; two or more, the result is the service name when its last host
equals `host` and `undefined` otherwise. -/
theorem serviceName_seedless {E : Type} (d : Directory (List String) E) (host : String) :
    (objectKeys d = [] → serviceName d host = Completion.threw JsError.typeError) ∧
    (∀ k, objectKeys d = [k] → serviceName d host = Completion.returned (Value.str k)) ∧
    (∀ k0 mid kl svc, objectKeys d = k0 :: (mid ++ [kl]) → getOwn d kl = some svc →
      ((∃ k ∈ mid, ∃ s, getOwn d k = some s ∧ s.hosts = []) →
        serviceName d host = Completion.threw JsError.typeError) ∧
      ((∀ k ∈ mid, ∀ s, getOwn d k = some s → s.hosts ≠ []) →
        (svc.hosts = [] → serviceName d host = Completion.threw JsError.typeError) ∧
        (∀ p, svc.hosts = [p] → serviceName d host = Completion.returned (Value.str p)) ∧
        (∀ p rest q, svc.hosts = p :: (rest ++ [q]) →
          serviceName d host =
            Completion.returned (if host = q then Value.str kl else Value.undefined)))) := by
  refine ⟨?_, ?_, ?_⟩
  · intro h
    simp [serviceName, h, reduceNoSeed]
  · intro k h
    simp [serviceName, h, reduceNoSeed, reduceFrom]
  · intro k0 mid kl svc hkeys hlast
    have hcb : ∀ (acc : Value (List String) E) (x : String),
        keysCallback d host acc x = keysCallback d host Value.undefined x := fun _ _ => rfl
    have hsn : serviceName d host =
        reduceFrom (keysCallback d host) (Value.str k0) (mid ++ [kl]) := by
      simp [serviceName, hkeys, reduceNoSeed]
    refine ⟨?_, ?_⟩
    · rintro ⟨k, hk, s, hs, hempty⟩
      rw [hsn]
      apply reduceFrom_threw (keysCallback d host) (keysCallback d host Value.undefined) hcb
      · exact fun x e he => keysCallback_threw d host x e he
      · refine ⟨k, List.mem_append_left _ hk, JsError.typeError, ?_⟩
        rw [keysCallback_of_getOwn d host k s hs, hempty]
        rfl
    · intro hmid
      have hfinal : serviceName d host =
          reduceNoSeed Value.str (hostsCallback host kl) svc.hosts := by
        rw [hsn, ← keysCallback_of_getOwn d host kl svc hlast]
        apply reduceFrom_append_last (keysCallback d host) (keysCallback d host Value.undefined) hcb
        intro x hx
        have hxkeys : x ∈ objectKeys d := by
          rw [hkeys]
          exact List.mem_cons_of_mem _ (List.mem_append_left _ hx)
        obtain ⟨s, hs⟩ := getOwn_of_mem_objectKeys d x hxkeys
        rw [keysCallback_of_getOwn d host x s hs]
        exact hosts_reduce_returned host x s.hosts (hmid x hx s hs)
      refine ⟨?_, ?_, ?_⟩
      · intro h
        rw [hfinal, h]
        rfl
      · intro p h
        rw [hfinal, h]
        rfl
      · intro p rest q h
        rw [hfinal, h]
        exact hosts_reduce_last host kl p q rest

theorem serviceName_seedless_witness :
    objectKeys threeServiceDirectory = "alpha" :: (["beta"] ++ ["gamma"]) ∧
    getOwn threeServiceDirectory "gamma" =
      some { hosts := "10.0.0.3:80" :: ([] ++ ["10.0.0.4:80"]), endpoints := noEndpoints } ∧
    (∀ k ∈ ["beta"], ∀ s, getOwn threeServiceDirectory k = some s → s.hosts ≠ []) ∧
    serviceName threeServiceDirectory "10.0.0.4:80" =
      Completion.returned
        (if "10.0.0.4:80" = "10.0.0.4:80" then Value.str "gamma" else Value.undefined) := by
  have hmid : ∀ k ∈ ["beta"], ∀ s, getOwn threeServiceDirectory k = some s → s.hosts ≠ [] := by
    intro k hk s hs
    have hk2 : k = "beta" := by simpa using hk
    subst hk2
    have hb : getOwn threeServiceDirectory "beta" =
        some { hosts := ["10.0.0.2:80"], endpoints := noEndpoints } := by decide
    rw [hb] at hs
    cases hs
    simp
  exact ⟨by decide, by decide, hmid,
    ((((serviceName_seedless threeServiceDirectory "10.0.0.4:80").2.2
      "alpha" ["beta"] "gamma"
      { hosts := "10.0.0.3:80" :: ([] ++ ["10.0.0.4:80"]), endpoints := noEndpoints }
      (by decide) (by decide)).2 hmid).2.2
      "10.0.0.3:80" [] "10.0.0.4:80" rfl)⟩

/-! ## Frame of the mutators -/

theorem getOwn_addService_of_ne {H E : Type} (d : Directory H E) (n m : String) (h : H) (e : E)
    (hne : m ≠ n) : getOwn (addService d n h e).services m = getOwn d m := by
  unfold addService
  by_cases ht : truthy (getProp d n) = false
  · simp [ht, getOwn_setProp, hne]
  · simp [ht]

theorem getOwn_removeService_of_ne {H E : Type} (d : Directory H E) (n m : String)
    (hne : m ≠ n) : getOwn (removeService d n).services m = getOwn d m := by
  unfold removeService
  by_cases ht : truthy (getProp d n) = false
  · simp [ht]
  · simp [ht, getOwn_deleteProp, hne]

/-- `addService` never removes or alters an entry, whatever its name. -/
theorem getOwn_addService_of_some {H E : Type} (d : Directory H E) (n m : String) (h : H)
    (e : E) (s : Service H E) (hs : getOwn d m = some s) :
    getOwn (addService d n h e).services m = some s := by
  by_cases hne : m = n
  · subst hne
    rw [addService_registered d m h e s hs]
    exact hs
  · rw [getOwn_addService_of_ne d n m h e hne]
    exact hs

/-- `removeService` never creates an entry, whatever its name. -/
theorem getOwn_removeService_of_none {H E : Type} (d : Directory H E) (n m : String)
    (hs : getOwn d m = none) : getOwn (removeService d n).services m = none := by
  unfold removeService
  by_cases ht : truthy (getProp d n) = false
  · simp [ht, hs]
  · by_cases hne : m = n
    · simp [ht, getOwn_deleteProp, hne]
    · simp [ht, getOwn_deleteProp, hne, hs]

/-- C19. For every directory state and names `m ≠ n`: `service(m)` is the same before and
after `addService(n, h, e)` and before and after `removeService(n)`, and so is
whether `m` is registered; moreover, for every name `k`, `addService` keeps every
existing entry and `removeService` creates none. -/
theorem mutators_frame {H E : Type} (d : Directory H E) (n m : String) (h : H) (e : E)
    (hne : m ≠ n) :
    service (addService d n h e).services m = service d m ∧
    service (removeService d n).services m = service d m ∧
    (registered (addService d n h e).services m ↔ registered d m) ∧
    (registered (removeService d n).services m ↔ registered d m) ∧
    (∀ k, registered d k → registered (addService d n h e).services k) ∧
    (∀ k, registered (removeService d n).services k → registered d k) := by
  refine ⟨?_, ?_, ?_, ?_, ?_, ?_⟩
  · simp [service, getProp, getOwn_addService_of_ne d n m h e hne]
  · simp [service, getProp, getOwn_removeService_of_ne d n m hne]
  · simp [registered, getOwn_addService_of_ne d n m h e hne]
  · simp [registered, getOwn_removeService_of_ne d n m hne]
  · intro k hk
    obtain ⟨s, hs⟩ := Option.isSome_iff_exists.1 hk
    simp [registered, getOwn_addService_of_some d n k h e s hs]
  · intro k hk
    cases hown : getOwn d k with
    | some s => simp [registered, hown]
    | none =>
      have := getOwn_removeService_of_none d n k hown
      simp [registered, this] at hk

theorem mutators_frame_witness :
    "orders" ≠ "billing" ∧
    service (addService ordersDirectory "billing" ["10.0.0.9:80"] noEndpoints).services "orders" =
      service ordersDirectory "orders" ∧
    service (removeService ordersDirectory "billing").services "orders" =
      service ordersDirectory "orders" :=
  ⟨by decide,
    (mutators_frame ordersDirectory "billing" "orders" ["10.0.0.9:80"] noEndpoints
      (by decide)).1,
    (mutators_frame ordersDirectory "billing" "orders" ["10.0.0.9:80"] noEndpoints
      (by decide)).2.1⟩

/-! ## Health probe -/

/-- C17. For every directory state and every registered name whose hosts start with `p`,
`heartbeat(name)` sends exactly one GET, to `http://p/hb`, and whether the probe
succeeds or fails the directory afterwards is the directory before. -/
theorem heartbeat_probe {E : Type} (probeOk : String → Bool) (d : Directory (List String) E)
    (name : String) (svc : Service (List String) E) (p : String) (rest : List String)
    (hs : getOwn d name = some svc) (hh : svc.hosts = p :: rest) :
    ∃ out, heartbeat listIndex0 probeOk d name = Completion.returned out ∧
      out.requests = ["http://" ++ p ++ "/hb"] ∧ out.services = d := by
  simp [heartbeat, service, getProp, hs, hh, listIndex0]

theorem heartbeat_probe_witness :
    getOwn ordersDirectory "orders" = some ordersService ∧
    ordersService.hosts = "10.0.0.1:80" :: [] ∧
    ∃ out, heartbeat listIndex0 (fun _ => false) ordersDirectory "orders" =
        Completion.returned out ∧
      out.requests = ["http://" ++ "10.0.0.1:80" ++ "/hb"] ∧ out.services = ordersDirectory :=
  ⟨by decide, rfl,
    heartbeat_probe (fun _ => false) ordersDirectory "orders" ordersService "10.0.0.1:80" []
      (by decide) rfl⟩

/-! ## Store keys -/

theorem splitAux_of_not_mem (sep : Char) (xs cur : List Char) (h : sep ∉ xs) :
    splitAux sep xs cur = [cur.reverse ++ xs] := by
  induction xs generalizing cur with
  | nil => simp [splitAux]
  | cons c cs ih =>
    have hc : ¬ c = sep := fun e => h (by simp [e])
    have hcs : sep ∉ cs := fun hm => h (List.mem_cons_of_mem _ hm)
    simp [splitAux, hc, ih _ hcs]

theorem splitAux_append_sep (sep : Char) (xs rest cur : List Char) (h : sep ∉ xs) :
    splitAux sep (xs ++ sep :: rest) cur = (cur.reverse ++ xs) :: splitAux sep rest [] := by
  induction xs generalizing cur with
  | nil => simp [splitAux]
  | cons c cs ih =>
    have hc : ¬ c = sep := fun e => h (by simp [e])
    have hcs : sep ∉ cs := fun hm => h (List.mem_cons_of_mem _ hm)
    simp [splitAux, hc, ih _ hcs]

/-- For a name without `_`, line 102 recovers the name from its hosts key. -/
theorem extractServiceName_hostsKey (name : String) (h : '_' ∉ name.toList) :
    extractServiceName (hostsKey name) = some name := by
  have hkey : (hostsKey name).toList =
      "registry".toList ++ '_' :: (name.toList ++ '_' :: "hosts".toList) := by
    simp [hostsKey, String.toList]
  have h1 : '_' ∉ "registry".toList := by decide
  have h2 : '_' ∉ "hosts".toList := by decide
  unfold extractServiceName splitUnderscore
  rw [hkey, splitAux_append_sep _ _ _ _ h1, splitAux_append_sep _ _ _ _ h,
    splitAux_of_not_mem _ _ _ h2]
  simp [String.toList]

/-- C13 (fails on the code). For the name `user_api`, line 102 extracts `user` from the
hosts key `registry_user_api_hosts`, so the records looked up are those of `user`. -/
theorem extractServiceName_user_api :
    hostsKey "user_api" = "registry_user_api_hosts" ∧
    extractServiceName (hostsKey "user_api") = some "user" ∧
    hostsKey ((extractServiceName (hostsKey "user_api")).getD "undefined") =
      "registry_user_hosts" ∧
    endpointsKey ((extractServiceName (hostsKey "user_api")).getD "undefined") =
      "registry_user_endpoints" := by
  decide

/-! ## Startup rehydration -/

/-- As soon as the scan reply holds a key, the loop throws on line 101: `initRedis`
rejects with a ReferenceError, the directory is untouched, no heartbeat is sent and
the handlers are not subscribed. -/
theorem initRedis_of_scanned {V : Type} (rt : JsonRuntime V) (probeOk : String → Bool)
    (st : Store) (key : String) (rest : List String) (d : Directory V V) :
    initRedis rt probeOk st (key :: rest) d =
      { services := d, requests := [], subscribed := false,
        error := some JsError.referenceError } := by
  simp [initRedis, rehydrateLoop, bindServiceKey]

/-- With an empty scan reply `initRedis` succeeds: the directory is untouched and the
handlers are subscribed. -/
theorem initRedis_of_empty_scan {V : Type} (rt : JsonRuntime V) (probeOk : String → Bool)
    (st : Store) (d : Directory V V) :
    initRedis rt probeOk st [] d =
      { services := d, requests := [], subscribed := true, error := none } := by
  simp [initRedis, rehydrateLoop]

/-- The loop body on its own never registers the name `user_api` for the key
`registry_user_api_hosts`: whatever it does, it does under the name `user`. -/
theorem rehydrateEntry_user_api {V : Type} (rt : JsonRuntime V) (probeOk : String → Bool)
    (st : Store) (r : Rehydration V) :
    getOwn (rehydrateEntry rt probeOk st r (hostsKey "user_api")).1.services "user_api" =
      getOwn r.services "user_api" := by
  have hname : (extractServiceName (hostsKey "user_api")).getD "undefined" = "user" := by decide
  have hne : "user_api" ≠ "user" := by decide
  unfold rehydrateEntry
  simp only [hname]
  repeat' split
  all_goals first
    | rfl
    | exact getOwn_addService_of_ne _ _ _ _ _ hne

/-- C16 (fails on the code). After the `service-connected` handler has written the two
records of `user_api`, rehydrating a fresh directory from that store (scan reply:
the hosts key of `user_api`) rejects with a ReferenceError and leaves the directory
empty: `service("user_api")` is `undefined`, not `{hosts: h, endpoints: e}`. -/
theorem rehydrate_user_api {V : Type} (rt : JsonRuntime V) (probeOk : String → Bool)
    (encode : V → String) (h e : V) :
    (addServiceSynced encode encode empty emptyStore "user_api" h e).2 (hostsKey "user_api") =
      some (encode h) ∧
    (addServiceSynced encode encode empty emptyStore "user_api" h e).2
      (endpointsKey "user_api") = some (encode e) ∧
    (initRedis rt probeOk (addServiceSynced encode encode empty emptyStore "user_api" h e).2
      [hostsKey "user_api"] empty).error = some JsError.referenceError ∧
    service (initRedis rt probeOk
      (addServiceSynced encode encode empty emptyStore "user_api" h e).2
      [hostsKey "user_api"] empty).services "user_api" = Value.undefined := by
  have hk : "user_api" ∉ objectPrototypeKeys := by decide
  have hne : endpointsKey "user_api" ≠ hostsKey "user_api" := by decide
  refine ⟨?_, ?_, ?_, ?_⟩
  · simp [addServiceSynced, addService, getProp, getOwn, empty, truthy, hk, setProp, deliver,
      onServiceConnected, service, storeSet]
  · simp [addServiceSynced, addService, getProp, getOwn, empty, truthy, hk, setProp, deliver,
      onServiceConnected, service, storeSet, hne]
  · simp [initRedis_of_scanned]
  · simp [initRedis_of_scanned, service, getProp, getOwn, empty, hk]

/-- C15 (fails on the code). With the handlers subscribed, `addService("toString", h, e)`
on the fresh registry, where `toString` is not registered, emits nothing, so the
store is left as it was: an empty store still has neither record of `toString`. -/
theorem addServiceSynced_inherited_name {H E : Type} (encodeHosts : H → String)
    (encodeEndpoints : E → String) (st : Store) (h : H) (e : E) :
    ¬ registered (empty : Directory H E) "toString" ∧
    (addServiceSynced encodeHosts encodeEndpoints empty st "toString" h e).2 = st ∧
    (addServiceSynced encodeHosts encodeEndpoints empty emptyStore "toString" h e).2
      (hostsKey "toString") = none ∧
    (addServiceSynced encodeHosts encodeEndpoints empty emptyStore "toString" h e).2
      (endpointsKey "toString") = none := by
  have hk : "toString" ∈ objectPrototypeKeys := by decide
  refine ⟨?_, ?_, ?_, ?_⟩ <;>
    simp [registered, addServiceSynced, addService, getProp, getOwn, empty, truthy, hk,
      emptyStore]

/-- C18 (fails on the code). On the fresh registry the single call
`removeService("toString")` changes nothing yet emits a notification, and the trace
for `toString` starts with `service-disconnected`; calling it twice gives two
`service-disconnected` in a row. -/
theorem run_remove_inherited_name :
    run (empty : Directory (List String) (EndpointSet String)) [Call.remove "toString"] =
      (empty, [{ event := "service-disconnected", args := [Value.str "toString"] }]) ∧
    changingCalls (empty : Directory (List String) (EndpointSet String))
      [Call.remove "toString"] = 0 ∧
    eventsFor "toString"
      (run (empty : Directory (List String) (EndpointSet String))
        [Call.remove "toString", Call.remove "toString"]).2 =
      ["service-disconnected", "service-disconnected"] ∧
    alternates true (eventsFor "toString"
      (run (empty : Directory (List String) (EndpointSet String))
        [Call.remove "toString", Call.remove "toString"]).2) = false := by
  decide

/-! ## Live synchronization for names that collide with nothing inherited -/

theorem removeService_emitted_of_getOwn {H E : Type} (d : Directory H E) (name : String)
    (s : Service H E) (hs : getOwn d name = some s) :
    (removeService d name).emitted =
      [{ event := "service-disconnected", args := [Value.str name] }] := by
  simp [removeService, getProp, hs, truthy]


theorem hostsKey_injective (a b : String) (h : hostsKey a = hostsKey b) : a = b := by
  have h1 := congrArg String.data h
  simp [hostsKey, String.data_append] at h1
  exact String.ext h1

theorem endpointsKey_injective (a b : String) (h : endpointsKey a = endpointsKey b) : a = b := by
  have h1 := congrArg String.data h
  simp [endpointsKey, String.data_append] at h1
  exact String.ext h1

theorem hostsKey_ne_endpointsKey (a b : String) : hostsKey a ≠ endpointsKey b := by
  intro h
  have h1 := congrArg (fun s => s.data.reverse) h
  simp [hostsKey, endpointsKey, String.data_append] at h1

/-- With the handlers subscribed, `addService` of an unregistered name that is not a
member of `Object.prototype` leaves both records of that name in the store and every
record of another name as it was. -/
theorem addServiceSynced_writes {H E : Type} (encodeHosts : H → String)
    (encodeEndpoints : E → String) (d : Directory H E) (st : Store) (name : String) (h : H)
    (e : E) (hreg : ¬ registered d name) (hk : name ∉ objectPrototypeKeys) :
    (addServiceSynced encodeHosts encodeEndpoints d st name h e).2 (hostsKey name) =
      some (encodeHosts h) ∧
    (addServiceSynced encodeHosts encodeEndpoints d st name h e).2 (endpointsKey name) =
      some (encodeEndpoints e) ∧
    ∀ other, other ≠ name →
      (addServiceSynced encodeHosts encodeEndpoints d st name h e).2 (hostsKey other) =
        st (hostsKey other) ∧
      (addServiceSynced encodeHosts encodeEndpoints d st name h e).2 (endpointsKey other) =
        st (endpointsKey other) := by
  have hadd := addService_unregistered d name h e hreg hk
  have hstore : (addServiceSynced encodeHosts encodeEndpoints d st name h e).2 =
      storeSet (storeSet st (endpointsKey name) (encodeEndpoints e)) (hostsKey name)
        (encodeHosts h) := by
    simp only [addServiceSynced, hadd.2.1, List.foldl, deliver]
    simp [onServiceConnected, hadd.1]
  rw [hstore]
  refine ⟨?_, ?_, ?_⟩
  · simp [storeSet]
  · simp [storeSet, (hostsKey_ne_endpointsKey name name).symm]
  · intro other hne
    have h1 : hostsKey other ≠ hostsKey name := fun hh => hne (hostsKey_injective _ _ hh)
    have h2 : endpointsKey other ≠ endpointsKey name :=
      fun hh => hne (endpointsKey_injective _ _ hh)
    simp [storeSet, h1, h2, hostsKey_ne_endpointsKey other name,
      (hostsKey_ne_endpointsKey name other).symm]

/-- With the handlers subscribed, `removeService` of a registered name leaves neither
record of that name in the store and every record of another name as it was. -/
theorem removeServiceSynced_deletes {H E : Type} (encodeHosts : H → String)
    (encodeEndpoints : E → String) (d : Directory H E) (st : Store) (name : String)
    (s : Service H E) (hs : getOwn d name = some s) :
    (removeServiceSynced encodeHosts encodeEndpoints d st name).2 (hostsKey name) = none ∧
    (removeServiceSynced encodeHosts encodeEndpoints d st name).2 (endpointsKey name) = none ∧
    ∀ other, other ≠ name →
      (removeServiceSynced encodeHosts encodeEndpoints d st name).2 (hostsKey other) =
        st (hostsKey other) ∧
      (removeServiceSynced encodeHosts encodeEndpoints d st name).2 (endpointsKey other) =
        st (endpointsKey other) := by
  have hem := removeService_emitted_of_getOwn d name s hs
  have hstore : (removeServiceSynced encodeHosts encodeEndpoints d st name).2 =
      storeDel (storeDel st (endpointsKey name)) (hostsKey name) := by
    simp only [removeServiceSynced, hem, List.foldl, deliver]
    simp [onServiceDisconnected]
  rw [hstore]
  refine ⟨?_, ?_, ?_⟩
  · simp [storeDel]
  · simp [storeDel]
  · intro other hne
    have h1 : hostsKey other ≠ hostsKey name := fun hh => hne (hostsKey_injective _ _ hh)
    have h2 : endpointsKey other ≠ endpointsKey name :=
      fun hh => hne (endpointsKey_injective _ _ hh)
    simp [storeDel, h1, h2, hostsKey_ne_endpointsKey other name,
      (hostsKey_ne_endpointsKey name other).symm]

/-! ## The event contract for names that collide with nothing inherited -/

theorem eventsFor_append {H E : Type} (name : String) (a b : List (Emitted H E)) :
    eventsFor name (a ++ b) = eventsFor name a ++ eventsFor name b := by
  simp [eventsFor, List.filterMap_append]

theorem eventsFor_single {H E : Type} (name n ev : String) :
    eventsFor name [({ event := ev, args := [Value.str n] } : Emitted H E)] =
      if n = name then [ev] else [] := by
  by_cases h : n = name <;> simp [eventsFor, List.filterMap, h]

theorem step_frame {H E : Type} (d : Directory H E) (c : Call H E) (m : String)
    (hne : m ≠ callName c) : getOwn (step d c).services m = getOwn d m := by
  cases c with
  | add n h e => exact getOwn_addService_of_ne d n m h e hne
  | remove n => exact getOwn_removeService_of_ne d n m hne

/-- What one call with a name outside `Object.prototype` does: nothing at all, or it
creates the entry and emits `service-connected`, or it deletes the entry and emits
`service-disconnected`. -/
theorem step_cases {H E : Type} (d : Directory H E) (c : Call H E)
    (hk : callName c ∉ objectPrototypeKeys) :
    ((step d c).services = d ∧ (step d c).emitted = []) ∨
    ((step d c).emitted = [{ event := "service-connected", args := [Value.str (callName c)] }] ∧
      (getOwn d (callName c)).isSome = false ∧
      (getOwn (step d c).services (callName c)).isSome = true) ∨
    ((step d c).emitted =
        [{ event := "service-disconnected", args := [Value.str (callName c)] }] ∧
      (getOwn d (callName c)).isSome = true ∧
      (getOwn (step d c).services (callName c)).isSome = false) := by
  cases c with
  | add n h e =>
    simp only [callName] at hk
    cases hown : getOwn d n with
    | some s =>
      left
      simp [step, addService_registered d n h e s hown]
    | none =>
      right
      left
      have hreg : ¬ registered d n := by simp [registered, hown]
      have hu := getProp_of_unregistered d n hreg hk
      simp [step, callName, addService, hu, truthy, getOwn_setProp, hown]
  | remove n =>
    simp only [callName] at hk
    cases hown : getOwn d n with
    | some s =>
      right
      right
      simp [step, callName, removeService, getProp, hown, truthy, getOwn_deleteProp]
    | none =>
      left
      have hreg : ¬ registered d n := by simp [registered, hown]
      simp [step, removeService_unregistered d n hreg hk]

/-- The event contract, for calls whose names are not members of `Object.prototype` and
from any starting directory: per name the notifications alternate, beginning with
`service-connected` when the name starts unregistered; the name ends registered
exactly when its last notification is `service-connected` (or, without any, when it
started registered); and as many notifications are emitted as calls changed the
directory. -/
theorem run_event_contract {H E : Type} [DecidableEq H] [DecidableEq E] (cs : List (Call H E))
    (hgood : ∀ c ∈ cs, callName c ∉ objectPrototypeKeys) (d : Directory H E) (name : String) :
    alternates (!(getOwn d name).isSome) (eventsFor name (run d cs).2) = true ∧
    (getOwn (run d cs).1 name).isSome =
      endsConnected (getOwn d name).isSome (eventsFor name (run d cs).2) ∧
    (run d cs).2.length = changingCalls d cs := by
  induction cs generalizing d with
  | nil => simp [run, eventsFor, alternates, endsConnected, changingCalls]
  | cons c cs ih =>
    have hk : callName c ∉ objectPrototypeKeys := hgood c (List.mem_cons_self c cs)
    have ih1 := ih (fun x hx => hgood x (List.mem_cons_of_mem c hx)) (step d c).services
    obtain ⟨ihalt, ihend, ihlen⟩ := ih1
    simp only [run, changingCalls, eventsFor_append, List.length_append]
    rcases step_cases d c hk with ⟨hsame, hem⟩ | ⟨hem, hbefore, hafter⟩ | ⟨hem, hbefore, hafter⟩
    · rw [hsame] at ihalt ihend ihlen
      rw [hem, hsame]
      have hnil : eventsFor name ([] : List (Emitted H E)) = [] := rfl
      simp only [hnil, List.nil_append, List.length_nil, if_true, Nat.zero_add]
      exact ⟨ihalt, ihend, ihlen⟩
    · have hchg : (step d c).services ≠ d := by
        intro heq
        rw [heq, hbefore] at hafter
        cases hafter
      rw [hem, eventsFor_single]
      by_cases hn : callName c = name
      · rw [← hn] at ihalt ihend ⊢
        rw [hafter] at ihalt ihend
        simp only [hbefore, if_true, List.singleton_append, alternates, endsConnected]
        refine ⟨by simpa using ihalt, by simpa using ihend, ?_⟩
        simp [hchg, ihlen, Nat.add_comm]
      · have hfr := step_frame d c name (fun h => hn h.symm)
        rw [hfr] at ihalt ihend
        simp only [hn, if_false, List.nil_append]
        refine ⟨ihalt, ihend, ?_⟩
        simp [hchg, ihlen, Nat.add_comm]
    · have hchg : (step d c).services ≠ d := by
        intro heq
        rw [heq, hbefore] at hafter
        cases hafter
      rw [hem, eventsFor_single]
      by_cases hn : callName c = name
      · rw [← hn] at ihalt ihend ⊢
        rw [hafter] at ihalt ihend
        simp only [hbefore, if_true, List.singleton_append, alternates, endsConnected]
        refine ⟨by simpa using ihalt, by simpa using ihend, ?_⟩
        simp [hchg, ihlen, Nat.add_comm]
      · have hfr := step_frame d c name (fun h => hn h.symm)
        rw [hfr] at ihalt ihend
        simp only [hn, if_false, List.nil_append]
        refine ⟨ihalt, ihend, ?_⟩
        simp [hchg, ihlen, Nat.add_comm]

/-! ## The loop body of rehydration, on its own -/

/-- What lines 102–118 would do for one key if the loop reached them: for a name without
`_` that is neither registered nor a member of `Object.prototype`, whose two records
hold the encodings of `h` and `e` (values that are not strings and that `JSON.parse`
decodes back), the entry `{hosts: h, endpoints: e}` is registered under that name. -/
theorem rehydrateEntry_round_trip {V : Type} (rt : JsonRuntime V) (probeOk : String → Bool)
    (encode : V → String) (st : Store) (r : Rehydration V) (name : String) (h e : V)
    (hname : '_' ∉ name.toList) (hk : name ∉ objectPrototypeKeys)
    (hreg : ¬ registered r.services name)
    (hh : st (hostsKey name) = some (encode h)) (he : st (endpointsKey name) = some (encode e))
    (hph : rt.parse (encode h) = Completion.returned h)
    (hpe : rt.parse (encode e) = Completion.returned e)
    (hsh : rt.asString h = none) (hse : rt.asString e = none) :
    service (rehydrateEntry rt probeOk st r (hostsKey name)).1.services name =
      Value.obj { hosts := h, endpoints := e } := by
  have hx : (extractServiceName (hostsKey name)).getD "undefined" = name := by
    simp [extractServiceName_hostsKey name hname]
  have hadd := (addService_unregistered r.services name h e hreg hk).1
  unfold rehydrateEntry
  simp only [hx, hh, he, parseReply, Option.getD_some, hph, hpe, decodeAgain, hsh, hse]
  split <;> exact hadd

/-- The loop body reads the store only through the two replies it decodes. -/
theorem rehydrateEntry_congr {V : Type} (rt : JsonRuntime V) (probeOk : String → Bool)
    (st1 st2 : Store) (r : Rehydration V) (serviceKey : String)
    (hh : parseReply rt (st1 (hostsKey ((extractServiceName serviceKey).getD "undefined"))) =
      parseReply rt (st2 (hostsKey ((extractServiceName serviceKey).getD "undefined"))))
    (he : parseReply rt (st1 (endpointsKey ((extractServiceName serviceKey).getD "undefined"))) =
      parseReply rt (st2 (endpointsKey ((extractServiceName serviceKey).getD "undefined")))) :
    rehydrateEntry rt probeOk st1 r serviceKey = rehydrateEntry rt probeOk st2 r serviceKey := by
  unfold rehydrateEntry
  simp only [hh, he]

/-- C14 (fails on the code). The loop body has no check for an absent record: for every
runtime, store and scanned key, lines 104–116 behave with the endpoints record
deleted exactly as they do with that record holding the text `null`, and likewise
for the hosts record; `JSON.parse(null)` reads an absent reply as that text. -/
theorem rehydrateEntry_absent_record {V : Type} (rt : JsonRuntime V) (probeOk : String → Bool)
    (st : Store) (r : Rehydration V) (serviceKey : String) :
    rehydrateEntry rt probeOk
        (storeDel st (endpointsKey ((extractServiceName serviceKey).getD "undefined"))) r
        serviceKey =
      rehydrateEntry rt probeOk
        (storeSet st (endpointsKey ((extractServiceName serviceKey).getD "undefined")) "null") r
        serviceKey ∧
    rehydrateEntry rt probeOk
        (storeDel st (hostsKey ((extractServiceName serviceKey).getD "undefined"))) r
        serviceKey =
      rehydrateEntry rt probeOk
        (storeSet st (hostsKey ((extractServiceName serviceKey).getD "undefined")) "null") r
        serviceKey := by
  have h1 := hostsKey_ne_endpointsKey ((extractServiceName serviceKey).getD "undefined")
    ((extractServiceName serviceKey).getD "undefined")
  have h2 : endpointsKey ((extractServiceName serviceKey).getD "undefined") ≠
      hostsKey ((extractServiceName serviceKey).getD "undefined") := fun h => h1 h.symm
  constructor
  · apply rehydrateEntry_congr
    · simp [storeDel, storeSet, h1]
    · simp [storeDel, storeSet, parseReply]
  · apply rehydrateEntry_congr
    · simp [storeDel, storeSet, parseReply]
    · simp [storeDel, storeSet, h2]

/-- What lines 102–118 do for a scanned key whose endpoints record is absent, in any
runtime where the hosts text and the text `null` decode to values that are not
strings and `${hosts[0]}` is `p`: the entry is registered with the decoding of
`null` as its endpoints, the heartbeat is sent, and nothing is thrown. -/
theorem rehydrateEntry_missing_endpoints {V : Type} (rt : JsonRuntime V)
    (probeOk : String → Bool) (st : Store) (r : Rehydration V) (name hostsText p : String)
    (hv nul : V) (hname : '_' ∉ name.toList) (hk : name ∉ objectPrototypeKeys)
    (hreg : ¬ registered r.services name)
    (hh : st (hostsKey name) = some hostsText) (he : st (endpointsKey name) = none)
    (hph : rt.parse hostsText = Completion.returned hv)
    (hnull : rt.parse "null" = Completion.returned nul)
    (hsh : rt.asString hv = none) (hsn : rt.asString nul = none)
    (hidx : rt.index0 hv = Completion.returned p) :
    (rehydrateEntry rt probeOk st r (hostsKey name)).2 = none ∧
    service (rehydrateEntry rt probeOk st r (hostsKey name)).1.services name =
      Value.obj { hosts := hv, endpoints := nul } ∧
    (rehydrateEntry rt probeOk st r (hostsKey name)).1.requests =
      r.requests ++ ["http://" ++ p ++ "/hb"] := by
  have hx : (extractServiceName (hostsKey name)).getD "undefined" = name := by
    simp [extractServiceName_hostsKey name hname]
  have hadd := (addService_unregistered r.services name hv nul hreg hk).1
  have hsvc : service (addService r.services name hv nul).services name =
      Value.obj { hosts := hv, endpoints := nul } := hadd
  have hhb : heartbeat rt.index0 probeOk (addService r.services name hv nul).services name =
      Completion.returned
        { services := (addService r.services name hv nul).services
          requests := ["http://" ++ p ++ "/hb"]
          logged := if probeOk ("http://" ++ p ++ "/hb") then
            ["[service-manager] " ++ name ++ " OK"] else [] } := by
    simp [heartbeat, hsvc, hidx]
  unfold rehydrateEntry
  simp only [hx, hh, he, parseReply, Option.getD_some, Option.getD_none, hph, hnull,
    decodeAgain, hsh, hsn, hhb]
  exact ⟨trivial, hadd, trivial⟩

/-- What lines 102–118 do for a scanned key whose hosts record is absent, in any runtime
where the text `null` decodes to a value `nul` that is not a string and `nul[0]`
throws: the entry is registered with `nul` as its hosts before the heartbeat
throws. -/
theorem rehydrateEntry_missing_hosts {V : Type} (rt : JsonRuntime V)
    (probeOk : String → Bool) (st : Store) (r : Rehydration V) (name endpointsText : String)
    (ev nul : V) (hname : '_' ∉ name.toList) (hk : name ∉ objectPrototypeKeys)
    (hreg : ¬ registered r.services name)
    (hh : st (hostsKey name) = none) (he : st (endpointsKey name) = some endpointsText)
    (hpe : rt.parse endpointsText = Completion.returned ev)
    (hnull : rt.parse "null" = Completion.returned nul)
    (hse : rt.asString ev = none) (hsn : rt.asString nul = none)
    (hidx : rt.index0 nul = Completion.threw JsError.typeError) :
    (rehydrateEntry rt probeOk st r (hostsKey name)).2 = some JsError.typeError ∧
    service (rehydrateEntry rt probeOk st r (hostsKey name)).1.services name =
      Value.obj { hosts := nul, endpoints := ev } := by
  have hx : (extractServiceName (hostsKey name)).getD "undefined" = name := by
    simp [extractServiceName_hostsKey name hname]
  have hadd := (addService_unregistered r.services name nul ev hreg hk).1
  have hsvc : service (addService r.services name nul ev).services name =
      Value.obj { hosts := nul, endpoints := ev } := hadd
  have hhb : heartbeat rt.index0 probeOk (addService r.services name nul ev).services name =
      Completion.threw JsError.typeError := by
    simp [heartbeat, hsvc, hidx]
  unfold rehydrateEntry
  simp only [hx, hh, he, parseReply, Option.getD_some, Option.getD_none, hpe, hnull,
    decodeAgain, hse, hsn, hhb]
  exact ⟨trivial, hadd⟩

end ServiceRegistry
